import Mathlib

/-!
# Verification of the PHIVOLCS earthquake extraction engine

Shallow embedding of the scraping/normalization core of the
seismic-monitoring repository (backend scraper `scrapePHIVOLCS` and the
frontend deduplication in `App.loadEarthquakes`), together with theorems
settling the frozen claims about it.

Modelling conventions:
* JavaScript numbers are modelled as `Option ℚ`, with `none` playing the
  role of `NaN` (all claims involve only decimal literals and comparisons
  that are exact in ℚ; `NaN` propagation and its comparison semantics are
  modelled explicitly).  `Infinity` is not modelled (treated as
  unparseable text); no claim depends on it.
* Timestamps (millisecond epoch values) are modelled as `ℤ`.
* `new Date(string).getTime()` is implementation-defined; it is modelled
  by an oracle `jsParse : String → Option ℤ` carried in an environment,
  `none` meaning an invalid date.  `Date.now()` is the environment's
  single `now` instant (one extraction run).
* String scanning (regexes, `split`, `indexOf`, `replace`) is implemented
  by structurally recursive functions over `List Char` so that every
  definition evaluates by kernel reduction.
-/

namespace Seismic

/-- A JavaScript number: `none` models `NaN`. -/
abbrev JSNum := Option ℚ

/-- JS `x === c` for a numeric literal `c` (`NaN === c` is `false`). -/
def jeqLit : JSNum → ℚ → Bool
  | some q, c => decide (q = c)
  | none, _ => false

/-- JS `x < c` (`NaN < c` is `false`). -/
def jltLit : JSNum → ℚ → Bool
  | some q, c => decide (q < c)
  | none, _ => false

/-- JS `x > c` (`NaN > c` is `false`). -/
def jgtLit : JSNum → ℚ → Bool
  | some q, c => decide (q > c)
  | none, _ => false

/-- JS `x >= c` (`NaN >= c` is `false`). -/
def jgeLit : JSNum → ℚ → Bool
  | some q, c => decide (q ≥ c)
  | none, _ => false

/-- JS `x <= c` (`NaN <= c` is `false`). -/
def jleLit : JSNum → ℚ → Bool
  | some q, c => decide (q ≤ c)
  | none, _ => false

/-- JS truthiness of a number: `0` and `NaN` are falsy. -/
def jsTruthy : JSNum → Bool
  | some q => decide (q ≠ 0)
  | none => false

/-- JS `a || b` on numbers: `a` unless `a` is `0` or `NaN`. -/
def jsOr (a b : JSNum) : JSNum := if jsTruthy a then a else b

/-- JS `a - b` on numbers (`NaN` propagates). -/
def jsub : JSNum → JSNum → JSNum
  | some a, some b => some (a - b)
  | _, _ => none

/-- JS `Math.abs` (`NaN` propagates). -/
def jabs : JSNum → JSNum
  | some a => some |a|
  | none => none

/-! ## String helpers (structurally recursive, kernel-evaluable) -/

/-- Decimal digit list to a natural number (most significant first). -/
def digitsToNat (ds : List Char) : ℕ :=
  ds.foldl (fun n c => 10 * n + (c.toNat - '0'.toNat)) 0

/-- Case-insensitive literal prefix: drop `lit` from the front of `cs`. -/
def dropPrefixCI : List Char → List Char → Option (List Char)
  | [], cs => some cs
  | _ :: _, [] => none
  | l :: ls, c :: cs => if c.toLower = l.toLower then dropPrefixCI ls cs else none

/-- Substring test: does `pat` occur in `cs`? -/
def containsSub (cs pat : List Char) : Bool :=
  match cs with
  | [] => pat.isEmpty
  | _ :: rest => pat.isPrefixOf cs || containsSub rest pat

/-- JS `s.includes(pat)` for plain strings. -/
def strContains (s pat : String) : Bool := containsSub s.toList pat.toList

/-- First index at which `pat` occurs in the list, scanning left to right. -/
def idxOfSubGo (pat : List Char) : List Char → ℕ → Option ℕ
  | [], i => if pat.isEmpty then some i else none
  | c :: rest, i =>
    if pat.isPrefixOf (c :: rest) then some i else idxOfSubGo pat rest (i + 1)

/-- JS `s.indexOf(pat)` (as `Option`: `none` for `-1`). -/
def idxOfSub (s pat : String) : Option ℕ := idxOfSubGo pat.toList s.toList 0

/-- Lower-case a string character by character (models the `/i` regex flag
and keyword comparison; all relevant text is ASCII). -/
def lowerStr (s : String) : String := String.mk (s.toList.map Char.toLower)

/-- Trim leading and trailing whitespace (JS `String.prototype.trim`). -/
def trimStr (s : String) : String :=
  String.mk
    (((s.toList.dropWhile Char.isWhitespace).reverse.dropWhile Char.isWhitespace).reverse)

/-- JS `s.replace(/\//g, '-')`. -/
def slashToDash (s : String) : String :=
  String.mk (s.toList.map fun c => if c = '/' then '-' else c)

/-- JS `s.replace(/^0+/, '')`: strip all leading `'0'` characters. -/
def stripLeadingZeros (s : String) : String :=
  String.mk (s.toList.dropWhile (· = '0'))

/-- Splitter for JS `s.split(pat)` with a plain-string separator, with fuel
(one unit per consumed character; the fuel supplied always suffices for a
nonempty separator). -/
def splitSubGo (pat : List Char) : ℕ → List Char → List Char → List (List Char)
  | 0, cs, acc => [acc.reverse ++ cs]
  | _ + 1, [], acc => [acc.reverse]
  | fuel + 1, c :: rest, acc =>
    if pat.isPrefixOf (c :: rest) then
      acc.reverse :: splitSubGo pat fuel ((c :: rest).drop pat.length) []
    else
      splitSubGo pat fuel rest (c :: acc)

/-- JS `s.split(pat)` for a nonempty plain-string separator. -/
def splitSub (s pat : String) : List String :=
  (splitSubGo pat.toList (s.toList.length + 1) s.toList []).map String.mk

/-- Worker for JS `s.split(/\s+/)`: runs of whitespace separate tokens; a
leading or trailing run contributes an empty token, consecutive whitespace
does not. -/
def splitWsGo : List Char → List Char → Bool → List (List Char)
  | [], cur, _ => [cur.reverse]
  | c :: cs, cur, prevWs =>
    if c.isWhitespace then
      if prevWs then splitWsGo cs cur true
      else cur.reverse :: splitWsGo cs [] true
    else
      splitWsGo cs (c :: cur) false

/-- JS `s.split(/\s+/)`. -/
def splitWs (s : String) : List String :=
  (splitWsGo s.toList [] false).map String.mk

/-- Is there a run of four consecutive decimal digits (regex `/\d{4}/`)? -/
def hasFourDigitRun : List Char → Bool
  | a :: b :: c :: d :: rest =>
    (a.isDigit && b.isDigit && c.isDigit && d.isDigit) ||
      hasFourDigitRun (b :: c :: d :: rest)
  | _ => false

/-! ## `parseFloat` -/

/-- Exponent part of a JS float literal: `e`/`E`, optional sign, digits.
Returns `0` when the exponent part is absent or malformed (JS `parseFloat`
only consumes a well-formed exponent). -/
def parseFloatExp (cs : List Char) : ℤ :=
  match cs with
  | e :: rest =>
    if e = 'e' ∨ e = 'E' then
      let (esign, rest1) : ℤ × List Char :=
        match rest with
        | '+' :: r => (1, r)
        | '-' :: r => (-1, r)
        | r => (1, r)
      let eds := rest1.takeWhile Char.isDigit
      if eds.isEmpty then 0 else esign * (digitsToNat eds : ℤ)
    else 0
  | [] => 0

/-- JS `parseFloat`: skip leading whitespace, optional sign, longest valid
decimal prefix; `none` models `NaN` (no parseable prefix).  `Infinity`
literals are not modelled. -/
def parseFloat (s : String) : JSNum :=
  let cs := s.toList.dropWhile Char.isWhitespace
  let (sign, cs1) : ℚ × List Char :=
    match cs with
    | '+' :: r => (1, r)
    | '-' :: r => (-1, r)
    | r => (1, r)
  let intDigits := cs1.takeWhile Char.isDigit
  let cs2 := cs1.drop intDigits.length
  let (fracDigits, cs3) : List Char × List Char :=
    match cs2 with
    | '.' :: r => (r.takeWhile Char.isDigit, r.dropWhile Char.isDigit)
    | r => ([], r)
  if intDigits.isEmpty ∧ fracDigits.isEmpty then none
  else
    let mantissa : ℚ :=
      (digitsToNat intDigits : ℚ) + (digitsToNat fracDigits : ℚ) / (10 ^ fracDigits.length)
    some (sign * mantissa * (10 : ℚ) ^ parseFloatExp cs3)

/-! ## Date/time normalizer (`parseDate`, part_000 lines 17-72) -/

/-- Environment for date handling: the implementation-defined
`new Date(string).getTime()` parser (`none` = invalid date) and the
run's `Date.now()` instant. -/
structure DateEnv where
  jsParse : String → Option ℤ
  now : ℤ

/-- The candidate strings `parseDate` hands to `new Date`, in attempt
order: the `' - '`-split recombination (when the date cell splits into
exactly two parts), the direct space concatenation, the slash-to-dash
substitution, the bare date string, and (when a time fragment is present)
the ISO `'T'` join and the space join. -/
def parseDateAttempts (dateStr timeStr : String) : List String :=
  (if strContains dateStr " - " then
      let parts := splitSub dateStr " - "
      if parts.length = 2 then
        [trimStr (parts.getD 0 "") ++ " " ++ trimStr (parts.getD 1 "")]
      else []
    else []) ++
  [dateStr ++ " " ++ timeStr, slashToDash dateStr, dateStr] ++
  (if timeStr ≠ "" then [dateStr ++ "T" ++ timeStr, dateStr ++ " " ++ timeStr] else [])

/-- The function `parseDate(dateStr, timeStr)` (part_000 lines 17-72): tries the combined
`' - '` format, then the format list, then the ISO/space joins, and falls
back to `Date.now()` with a logged warning.  The returned `Bool` is `true`
exactly when the warning was emitted.  The source wraps the body in
`try/catch` returning `Date.now()` on error; the model is total, so the
catch arm has no counterpart. -/
def parseDate (denv : DateEnv) (dateStr timeStr : String) : ℤ × Bool :=
  let combined : Option ℤ :=
    if strContains dateStr " - " then
      let parts := splitSub dateStr " - "
      if parts.length = 2 then
        denv.jsParse (trimStr (parts.getD 0 "") ++ " " ++ trimStr (parts.getD 1 ""))
      else none
    else none
  match combined with
  | some t => (t, false)
  | none =>
    match [dateStr ++ " " ++ timeStr, slashToDash dateStr, dateStr].findSome? denv.jsParse with
    | some t => (t, false)
    | none =>
      if timeStr ≠ "" then
        match denv.jsParse (dateStr ++ "T" ++ timeStr) with
        | some t => (t, false)
        | none =>
          match denv.jsParse (dateStr ++ " " ++ timeStr) with
          | some t => (t, false)
          | none => (denv.now, true)
      else (denv.now, true)

/-! ## Data model -/

/-- Synthetic record identifiers.  The source builds id strings
(`phivolcs-${table}-${row}-${Date.now()}-${random}`,
`phivolcs-div-${index}-${Date.now()}`, `phivolcs-js-${index}-${Date.now()}`);
the three formats have distinct prefixes, so they are modelled as a sum,
with the random disambiguator kept as a string. -/
inductive RecordId where
  | tabular (tableIndex rowIndex : ℕ) (now : ℤ) (rand : String)
  | attr (index : ℕ) (now : ℤ)
  | js (index : ℕ) (now : ℤ)
deriving DecidableEq

/-- The canonical output record (`PHIVOLCSEarthquake`, part_000 lines 4-14).
The optional `url`/`detail` passthrough fields are never set by the
scraper and are omitted. -/
structure PHIVOLCSEarthquake where
  id : RecordId
  magnitude : JSNum
  latitude : JSNum
  longitude : JSNum
  depth : JSNum
  place : String
  time : ℤ
deriving DecidableEq

/-- One table row: the text of its `td`/`th` cells in order, and whether
the row contains any `th` element. -/
structure Row where
  cells : List String
  hasTh : Bool
deriving DecidableEq

/-- Environment of one extraction run: date handling plus the
`Math.random()` disambiguator drawn per (table, row).  `Date.now()` is
called at several points in the source during a single run; it is
modelled as the single instant `denv.now`. -/
structure ScrapeEnv where
  denv : DateEnv
  rand : ℕ → ℕ → String

/-! ## Row field extractor (part_000 lines 325-513) -/

/-- Header keywords of the regex
`/date|time|magnitude|location|latitude|longitude|depth|header|seismological|observation/i`. -/
def headerKeywords : List String :=
  ["date", "time", "magnitude", "location", "latitude", "longitude", "depth",
   "header", "seismological", "observation"]

/-- Does a cell text match the header-keyword regex (case-insensitive)? -/
def headerKeyword (s : String) : Bool :=
  headerKeywords.any fun kw => strContains (lowerStr s) kw

/-- Row classified as a header (part_000 lines 330-333): has a `th` cell or
some cell text contains a header keyword. -/
def isHeaderRow (row : Row) : Bool :=
  row.hasTh || row.cells.any headerKeyword

/-- Month names tested (case-sensitively) against the first cell
(part_000 lines 377-380). -/
def monthNames : List String :=
  ["November", "January", "February", "March", "April", "May", "June",
   "July", "August", "September", "October", "December"]

/-- First-cell test selecting the combined date-time layout (part_000
lines 377-381): contains a month name or a four-digit run. -/
def monthOrYearCell (s : String) : Bool :=
  (monthNames.any fun m => strContains s m) || hasFourDigitRun s.toList

/-- The local variables of the row-parsing block just before validation. -/
structure Candidate where
  dateStr : String
  timeStr : String
  magnitude : JSNum
  latitude : JSNum
  longitude : JSNum
  depth : JSNum
  place : String

/-- Magnitude pre-scan (part_000 lines 355-367): the first cell whose
`parseFloat` lies strictly between 0 and 10 sets the magnitude, and (when
that cell is not the first) the date/time strings from cells 0 and 1.
Returns the resulting `(magnitude, dateStr, timeStr)` triple, starting
from the initial values `0`, `""`, `""`. -/
def magPrescan (cells : List String) : JSNum × String × String :=
  match cells.findIdx? (fun s =>
      match parseFloat s with
      | some q => decide (0 < q) && decide (q < 10)
      | none => false) with
  | some i =>
    (parseFloat (cells.getD i ""),
      if 0 < i then cells.getD 0 "" else "",
      if 0 < i then cells.getD 1 "" else "")
  | none => (some 0, "", "")

/-- The expression `parseFloat(cell.replace(/^0+/, marker)) || parseFloat(cell)`
(part_000 lines 402-405): strip leading zeros first, fall back to the
raw text when the stripped parse is falsy (`NaN` or `0`). -/
def stripParse (s : String) : JSNum :=
  jsOr (parseFloat (stripLeadingZeros s)) (parseFloat s)

/-- Combined date-time layout (part_000 lines 382-409): split the first
cell on `' - '` (at a positive index) or by whitespace into a 3-token date
plus remainder time; cells 1-4 are latitude, longitude, depth (leading
zeros stripped) and magnitude, cell 5 onward the place. -/
def tierACandidate (cells : List String) : Candidate :=
  let c0 := cells.getD 0 ""
  let (dateStr, timeStr) : String × String :=
    match idxOfSub c0 " - " with
    | some k =>
      if 0 < k then
        (trimStr (String.mk (c0.toList.take k)), trimStr (String.mk (c0.toList.drop (k + 3))))
      else
        let parts := splitWs c0
        if 4 ≤ parts.length then
          (" ".intercalate (parts.take 3), " ".intercalate (parts.drop 3))
        else (c0, "")
    | none =>
      let parts := splitWs c0
      if 4 ≤ parts.length then
        (" ".intercalate (parts.take 3), " ".intercalate (parts.drop 3))
      else (c0, "")
  { dateStr := dateStr
    timeStr := timeStr
    magnitude := parseFloat (cells.getD 4 "")
    latitude := stripParse (cells.getD 1 "")
    longitude := stripParse (cells.getD 2 "")
    depth := stripParse (cells.getD 3 "")
    place :=
      if cells.getD 5 "" ≠ "" then cells.getD 5 ""
      else " ".intercalate (cells.drop 5) }

/-- The nested loop of part_000 lines 435-449: the first pair of indices
`(i, j)` in lexicographic order, `i ≠ j`, with `values[i]` in the latitude
band `[3, 22]` and `values[j]` in the longitude band `[115, 128]`.  Also
returns the remaining values in order. -/
def findBandPair (values : List ℚ) : Option (ℚ × ℚ × List ℚ) :=
  ((List.range values.length).findSome? fun i =>
    if decide (3 ≤ values.getD i 0) && decide (values.getD i 0 ≤ 22) then
      ((List.range values.length).find? fun j =>
          decide (j ≠ i) && decide (115 ≤ values.getD j 0) &&
            decide (values.getD j 0 ≤ 128)).map fun j => (i, j)
    else none).map fun p =>
    (values.getD p.1 0, values.getD p.2 0,
      (values.enum.filter fun q => q.1 ≠ p.1 ∧ q.1 ≠ p.2).map Prod.snd)

/-- Separate date/time layout (part_000 lines 410-453): cells 0 and 1 are
date/time; cells 2-5 are probed for a latitude/longitude pair directly,
swapped, or among all nonzero numeric combinations; the remaining values
become depth and magnitude.  `pre` is the pre-scanned magnitude, which
survives when the combination search assigns fewer than two leftovers. -/
def tierBCandidate (cells : List String) (pre : JSNum × String × String) : Candidate :=
  let orZero : String → String := fun s => if s = "" then "0" else s
  let val1 := parseFloat (orZero (cells.getD 2 ""))
  let val2 := parseFloat (orZero (cells.getD 3 ""))
  let val3 := parseFloat (orZero (cells.getD 4 ""))
  let val4 := parseFloat (orZero (cells.getD 5 ""))
  let place := if cells.getLastD "" = "" then "Unknown" else cells.getLastD ""
  let base : Candidate :=
    { dateStr := cells.getD 0 "", timeStr := cells.getD 1 "",
      magnitude := pre.1, latitude := some 0, longitude := some 0,
      depth := some 0, place := place }
  if jgeLit val1 3 && jleLit val1 22 && jgeLit val2 115 && jleLit val2 128 then
    { base with latitude := val1, longitude := val2, depth := val3, magnitude := val4 }
  else if jgeLit val2 3 && jleLit val2 22 && jgeLit val1 115 && jleLit val1 128 then
    { base with latitude := val2, longitude := val1, depth := val3, magnitude := val4 }
  else
    let values := ([val1, val2, val3, val4].filterMap id).filter (· ≠ 0)
    match findBandPair values with
    | some (la, lo, remaining) =>
      { base with
        latitude := some la
        longitude := some lo
        depth := if remaining.length ≥ 1 then some (remaining.getD 0 0) else base.depth
        magnitude := if remaining.length ≥ 2 then some (remaining.getD 1 0) else base.magnitude }
    | none => base

/-- Field extraction for a (necessarily ≥ 6 cell) data row.  The source
also contains branches for 5-cell and 3-4-cell rows (part_000 lines
454-510), but they are unreachable: the guard at line 336 has already
rejected every row with fewer than 6 cells, so only the ≥ 6 cell branch
(lines 373-453) is modelled. -/
def extractFields (cells : List String) : Candidate :=
  let pre := magPrescan cells
  if monthOrYearCell (cells.getD 0 "") then tierACandidate cells
  else tierBCandidate cells pre

/-! ## Record validator (part_000 lines 515-532) -/

/-- Magnitude validation (line 516): rejected when `magnitude === 0`,
`isNaN(magnitude)`, `magnitude < 0` or `magnitude > 10`. -/
def validMagnitude (m : JSNum) : Bool :=
  !(jeqLit m 0 || m.isNone || jltLit m 0 || jgtLit m 10)

/-- Coordinate validation (lines 527-529): rejected when either coordinate
equals 0, the latitude leaves `[3, 22]`, or the longitude leaves
`[115, 128]`.  With `NaN` every comparison is `false`, so a `NaN`
coordinate passes. -/
def validCoords (lat lon : JSNum) : Bool :=
  !(jeqLit lat 0 || jeqLit lon 0 || jltLit lat 3 || jgtLit lat 22 ||
      jltLit lon 115 || jgtLit lon 128)

/-- Combined validation: magnitude first, then coordinates. -/
def acceptCandidate (m lat lon : JSNum) : Bool :=
  validMagnitude m && validCoords lat lon

/-- Record construction for an accepted tabular row (part_000 lines
534-547): `latitude || 0`, `longitude || 0`, `depth || 0`,
`place || 'Unknown Location'`; time from `parseDate`. -/
def buildRecord (env : ScrapeEnv) (tableIndex rowIndex : ℕ) (c : Candidate) :
    PHIVOLCSEarthquake :=
  { id := .tabular tableIndex rowIndex env.denv.now (env.rand tableIndex rowIndex)
    magnitude := c.magnitude
    latitude := jsOr c.latitude (some 0)
    longitude := jsOr c.longitude (some 0)
    depth := jsOr c.depth (some 0)
    place := if c.place = "" then "Unknown Location" else c.place
    time := (parseDate env.denv c.dateStr c.timeStr).1 }

/-- Validation and construction for a row that passed the guard. -/
def buildFromCandidate (env : ScrapeEnv) (tableIndex rowIndex : ℕ) (c : Candidate) :
    Option PHIVOLCSEarthquake :=
  if validMagnitude c.magnitude then
    if validCoords c.latitude c.longitude then
      some (buildRecord env tableIndex rowIndex c)
    else none
  else none

/-- One row of the tabular strategy (part_000 lines 325-552): header rows
and rows with fewer than 6 cells are skipped unprocessed (line 336);
otherwise the fields are extracted and validated.  Row-level exceptions
are caught and treated as a skip in the source; the model is total. -/
def processRow (env : ScrapeEnv) (tableIndex rowIndex : ℕ) (row : Row) :
    Option PHIVOLCSEarthquake :=
  if isHeaderRow row || row.cells.length < 6 then none
  else buildFromCandidate env tableIndex rowIndex (extractFields row.cells)

/-- All records of one table, rows indexed from 0. -/
def processTable (env : ScrapeEnv) (tableIndex : ℕ) (rows : List Row) :
    List PHIVOLCSEarthquake :=
  rows.enum.filterMap fun p => processRow env tableIndex p.1 p.2

/-- Method 1, the tabular strategy (part_000 lines 291-553): every row of
every table. -/
def tabularRecords (env : ScrapeEnv) (tables : List (List Row)) :
    List PHIVOLCSEarthquake :=
  tables.enum.flatMap fun p => processTable env p.1 p.2

/-! ## Attribute-pattern strategy (part_000 lines 558-589) -/

/-- Matcher for the labelled-number regexes
`/magnitude[:\s]+([\d.]+)/i`, `/lat[itude]*[:\s]+([\d.]+)/i`,
`/lon[gitude]*[:\s]+([\d.]+)/i`, `/depth[:\s]+([\d.]+)/i`
at one position: the literal (case-insensitive), a greedy run over the
optional trailing class, at least one `':'`/whitespace, then the captured
digits-and-dots run.  The character classes involved are pairwise
disjoint, so greedy matching needs no backtracking. -/
def matchLabeledAt (lit optCls : List Char) (cs : List Char) : Option (List Char) :=
  match dropPrefixCI lit cs with
  | none => none
  | some r1 =>
    let r2 := r1.dropWhile fun c => optCls.contains c.toLower
    let seps := r2.takeWhile fun c => c = ':' || c.isWhitespace
    if seps.isEmpty then none
    else
      let cap := (r2.drop seps.length).takeWhile fun c => c.isDigit || c = '.'
      if cap.isEmpty then none else some cap

/-- Leftmost match of the labelled-number pattern (JS `String.match`). -/
def scanLabeled (lit optCls : List Char) : List Char → Option (List Char)
  | [] => none
  | c :: rest =>
    match matchLabeledAt lit optCls (c :: rest) with
    | some cap => some cap
    | none => scanLabeled lit optCls rest

/-- The captured group of the labelled-number regex, as a string. -/
def matchLabeledNum (lit optCls text : String) : Option String :=
  (scanLabeled lit.toList optCls.toList text.toList).map String.mk

/-- Method 2 (part_000 lines 565-586): for each element whose attributes
suggest earthquake content, extract magnitude (required, in `(0, 10)`
after a `NaN` check), latitude/longitude/depth (defaulting to 0 when
unmatched), place `'Philippines'` and `time: Date.now()`. -/
def attrRecords (env : ScrapeEnv) (texts : List String) : List PHIVOLCSEarthquake :=
  texts.enum.filterMap fun p =>
    match matchLabeledNum "magnitude" "" p.2 with
    | none => none
    | some capture =>
      match parseFloat capture with
      | none => none
      | some m =>
        if decide (0 < m) && decide (m < 10) then
          some
            { id := .attr p.1 env.denv.now
              magnitude := some m
              latitude :=
                match matchLabeledNum "lat" "itude" p.2 with
                | some cap => parseFloat cap
                | none => some 0
              longitude :=
                match matchLabeledNum "lon" "gitude" p.2 with
                | some cap => parseFloat cap
                | none => some 0
              depth :=
                match matchLabeledNum "depth" "" p.2 with
                | some cap => parseFloat cap
                | none => some 0
              place := "Philippines"
              time := env.denv.now }
        else none

/-! ## Embedded-data strategy (part_000 lines 591-638) -/

/-- One item of an array-like JSON fragment found in a script tag.  The
regex search and `JSON.parse` step are abstracted: the document model
carries the parsed items directly.  Absent fields are `none`/`""`; the
`time` field abstracts `item.time ? new Date(item.time).getTime() :
Date.now()` as an already-parsed optional timestamp. -/
structure JsonItem where
  magnitude : JSNum := none
  mag : JSNum := none
  latitude : JSNum := none
  lat : JSNum := none
  longitude : JSNum := none
  lon : JSNum := none
  lng : JSNum := none
  depth : JSNum := none
  place : String := ""
  location : String := ""
  time : Option ℤ := none

/-- Method 3 (part_000 lines 611-623): items with a truthy
`magnitude`/`mag` become records through the key-alias fallbacks. -/
def jsRecords (env : ScrapeEnv) (items : List JsonItem) : List PHIVOLCSEarthquake :=
  items.enum.filterMap fun p =>
    if jsTruthy (jsOr p.2.magnitude p.2.mag) then
      some
        { id := .js p.1 env.denv.now
          magnitude := jsOr (jsOr p.2.magnitude p.2.mag) (some 0)
          latitude := jsOr (jsOr p.2.latitude p.2.lat) (some 0)
          longitude := jsOr (jsOr (jsOr p.2.longitude p.2.lon) p.2.lng) (some 0)
          depth := jsOr p.2.depth (some 0)
          place :=
            if p.2.place ≠ "" then p.2.place
            else if p.2.location ≠ "" then p.2.location else "Philippines"
          time := p.2.time.getD env.denv.now }
    else none

/-! ## Deduplication and ordering -/

/-- JS `array.filter((x, index, self) => index === self.findIndex(e =>
dup(e, x)))`: keep an element exactly when the first duplicate of it in
the whole array is the element itself. -/
def keepFirstByGo (dup : α → α → Bool) (orig : List α) : List α → ℕ → List α
  | [], _ => []
  | x :: xs, i =>
    if orig.findIdx (fun e => dup e x) = i then x :: keepFirstByGo dup orig xs (i + 1)
    else keepFirstByGo dup orig xs (i + 1)

/-- Keep-first deduplication over a duplicate predicate. -/
def keepFirstBy (dup : α → α → Bool) (l : List α) : List α :=
  keepFirstByGo dup l l 0

/-- Scraper-level deduplication (part_000 lines 669-671): by id equality
only. -/
def dedupeById (l : List PHIVOLCSEarthquake) : List PHIVOLCSEarthquake :=
  keepFirstBy (fun e eq => decide (e.id = eq.id)) l

/-- The duplicate predicate of `App.loadEarthquakes` (part_006 lines
47-51): equal ids, or times within 60 000 ms and both coordinates within
0.01. -/
def isDuplicateApp (e eq : PHIVOLCSEarthquake) : Bool :=
  decide (e.id = eq.id) ||
    (decide (|e.time - eq.time| < 60000) &&
      jltLit (jabs (jsub e.latitude eq.latitude)) (1 / 100) &&
      jltLit (jabs (jsub e.longitude eq.longitude)) (1 / 100))

/-- Frontend deduplication (part_006 lines 45-52): keep-first filter under
`isDuplicateApp`. -/
def removeDuplicatesApp (l : List PHIVOLCSEarthquake) : List PHIVOLCSEarthquake :=
  keepFirstBy isDuplicateApp l

/-- Stable insertion of a record into a time-descending list: the new
element goes before the first element whose time is not greater.  `x` is
earlier in encounter order than every element of the list it is inserted
into. -/
def insertByTimeDesc (x : PHIVOLCSEarthquake) :
    List PHIVOLCSEarthquake → List PHIVOLCSEarthquake
  | [] => [x]
  | y :: ys => if y.time ≤ x.time then x :: y :: ys else y :: insertByTimeDesc x ys

/-- The call `earthquakes.sort((a, b) => b.time - a.time)` (part_000 line 673):
ECMAScript specifies `Array.prototype.sort` as a stable sort consistent
with the comparator, which for this comparator determines the output
uniquely; it is realized here as a stable insertion sort by descending
time. -/
def sortByTimeDesc (l : List PHIVOLCSEarthquake) : List PHIVOLCSEarthquake :=
  l.foldr insertByTimeDesc []

/-! ## Extraction orchestrator (part_000 lines 289-676) -/

/-- The rendered document, as seen by the extraction engine: tables of
rows, the text of attribute-tagged candidate elements (selector
`[class*="earthquake"], [id*="earthquake"], [class*="quake"],
[id*="quake"]`), and the parsed embedded-script items. -/
structure Document where
  tables : List (List Row)
  attrTexts : List String
  scriptItems : List JsonItem

/-- The body of `scrapePHIVOLCS` once the document markup is in hand (part_000 lines
289-676): the tabular strategy, then — only while the record list is
still empty — the attribute-pattern strategy and the embedded-data
strategy; the final free-text block (lines 641-666) only logs and returns
the empty array; otherwise the records are deduplicated by id and sorted
by descending time.  Fetch/launch failures throw before this point and
are outside the model. -/
def scrapeFromDoc (env : ScrapeEnv) (doc : Document) : List PHIVOLCSEarthquake :=
  let m1 := tabularRecords env doc.tables
  let recs :=
    if m1.isEmpty then
      let m2 := attrRecords env doc.attrTexts
      if m2.isEmpty then jsRecords env doc.scriptItems else m2
    else m1
  if recs.isEmpty then [] else sortByTimeDesc (dedupeById recs)

/-! ## Sample inputs and their records -/

/-- A concrete run environment: every `new Date(string)` parse is invalid,
`Date.now()` is `0`, and the random id suffix is `""`. -/
def sampleEnv : ScrapeEnv := ⟨⟨fun _ => none, 0⟩, fun _ _ => ""⟩

/-- A document with no tables, no candidate elements and no script data. -/
def emptyDoc : Document := ⟨[], [], []⟩

/-- A 6-cell PHIVOLCS data row in the combined date-time layout. -/
def rowTierA : Row :=
  ⟨["16 November 2025 - 02:35 PM", "06.34", "126.35", "048", "4.1", "Somewhere PH"], false⟩

/-- The record extracted from `rowTierA` (table 0, row 0, `sampleEnv`):
no date parse succeeds, so the time falls back to `now = 0`. -/
def recTierA : PHIVOLCSEarthquake :=
  { id := .tabular 0 0 0 ""
    magnitude := some 4.1
    latitude := some 6.34
    longitude := some 126.35
    depth := some 48
    place := "Somewhere PH"
    time := 0 }

/-- Row `rowTierA` with the place cell removed: a 5-cell non-header row. -/
def row5cells : Row :=
  ⟨["16 November 2025 - 02:35 PM", "06.34", "126.35", "048", "4.1"], false⟩

/-- A document whose only earthquake content is one tabular row. -/
def docTabular : Document := ⟨[[rowTierA]], [], []⟩

/-- The attribute-tagged element text of the fallback-escalation scenario. -/
def attrTextC6 : String := "magnitude: 5.2, lat: 8.1, lon: 124.3"

/-- A document with no tables and one attribute-tagged element. -/
def docAttrC6 : Document := ⟨[], [attrTextC6], []⟩

/-- The single record the attribute-pattern strategy extracts from
`attrTextC6`. -/
def recAttrC6 : PHIVOLCSEarthquake :=
  { id := .attr 0 0
    magnitude := some 5.2
    latitude := some 8.1
    longitude := some 124.3
    depth := some 0
    place := "Philippines"
    time := 0 }

/-- A document with no tables and one attribute-tagged element carrying
only a magnitude label. -/
def docMagOnly : Document := ⟨[], ["magnitude: 5.2"], []⟩

/-- The record extracted from `docMagOnly`: latitude and longitude default
to `0`. -/
def recMagOnly : PHIVOLCSEarthquake :=
  { id := .attr 0 0
    magnitude := some 5.2
    latitude := some 0
    longitude := some 0
    depth := some 0
    place := "Philippines"
    time := 0 }

/-- Two records 200 000 ms apart with distinct ids, same place and
coordinates. -/
def recDedupA : PHIVOLCSEarthquake :=
  { id := .attr 0 0, magnitude := some 5, latitude := some 8, longitude := some 124
    depth := some 0, place := "Philippines", time := 0 }

/-- See `recDedupA`. -/
def recDedupB : PHIVOLCSEarthquake :=
  { id := .attr 1 0, magnitude := some 5, latitude := some 8, longitude := some 124
    depth := some 0, place := "Philippines", time := 200000 }

/-- Three records with distinct ids and times 1 < 2 < 3. -/
def recT1 : PHIVOLCSEarthquake :=
  { id := .attr 0 0, magnitude := some 5, latitude := some 8, longitude := some 124
    depth := some 0, place := "Philippines", time := 1 }

/-- See `recT1`. -/
def recT2 : PHIVOLCSEarthquake :=
  { id := .attr 1 0, magnitude := some 5, latitude := some 8, longitude := some 124
    depth := some 0, place := "Philippines", time := 2 }

/-- See `recT1`. -/
def recT3 : PHIVOLCSEarthquake :=
  { id := .attr 2 0, magnitude := some 5, latitude := some 8, longitude := some 124
    depth := some 0, place := "Philippines", time := 3 }

/-! ## Helper lemmas

The arithmetic of `ℚ` in core Lean is `@[irreducible]`, which blocks the
elaborator's evaluation in `decide`-style proofs of concrete runs; the
kernel itself reduces these definitions regardless.  Reducibility is
restored locally for the proofs below. -/

section ProofSection

set_option allowUnsafeReducibility true

attribute [local semireducible] Rat.add Rat.mul Rat.sub Rat.inv Rat.div Rat.neg
  Rat.ofScientific

theorem jsTruthy_eq_true_iff {x : JSNum} :
    jsTruthy x = true ↔ ∃ q, x = some q ∧ q ≠ 0 := by
  cases x <;> simp [jsTruthy]

theorem jsOr_of_truthy {x y : JSNum} (h : jsTruthy x = true) : jsOr x y = x := by
  simp [jsOr, h]

theorem jltLit_jabs_jsub_iff {x y : JSNum} {c : ℚ} :
    jltLit (jabs (jsub x y)) c = true ↔
      ∃ p q, x = some p ∧ y = some q ∧ |p - q| < c := by
  cases x <;> cases y <;> simp [jsub, jabs, jltLit]

theorem keepFirstBy_pair (dup : α → α → Bool) (a b : α)
    (ha : dup a a = true) (hb : dup b b = true) :
    keepFirstBy dup [a, b] = if dup a b = true then [a] else [a, b] := by
  by_cases h : dup a b = true
  · simp [keepFirstBy, keepFirstByGo, List.findIdx_cons, ha, hb, h]
  · have h' : dup a b = false := by
      cases hd : dup a b
      · rfl
      · exact absurd hd h
    simp [keepFirstBy, keepFirstByGo, List.findIdx_cons, ha, hb, h']

theorem isDuplicateApp_self (a : PHIVOLCSEarthquake) : isDuplicateApp a a = true := by
  simp [isDuplicateApp]

theorem dedupeById_three (a b c : PHIVOLCSEarthquake)
    (hab : a.id ≠ b.id) (hac : a.id ≠ c.id) (hbc : b.id ≠ c.id) :
    dedupeById [a, b, c] = [a, b, c] := by
  simp [dedupeById, keepFirstBy, keepFirstByGo, List.findIdx_cons, hab, hac, hbc]

theorem mem_insertByTimeDesc {x y : PHIVOLCSEarthquake} {l : List PHIVOLCSEarthquake}
    (h : y ∈ insertByTimeDesc x l) : y = x ∨ y ∈ l := by
  induction l with
  | nil => simpa [insertByTimeDesc] using h
  | cons z zs ih =>
    rw [insertByTimeDesc] at h
    by_cases hz : z.time ≤ x.time
    · rw [if_pos hz] at h
      simpa using h
    · rw [if_neg hz] at h
      rcases List.mem_cons.mp h with h' | h'
      · exact Or.inr (h' ▸ List.mem_cons_self z zs)
      · rcases ih h' with h'' | h''
        · exact Or.inl h''
        · exact Or.inr (List.mem_cons_of_mem z h'')

theorem pairwise_insertByTimeDesc {x : PHIVOLCSEarthquake} {l : List PHIVOLCSEarthquake}
    (h : l.Pairwise fun a b => b.time ≤ a.time) :
    (insertByTimeDesc x l).Pairwise fun a b => b.time ≤ a.time := by
  induction l with
  | nil => simp [insertByTimeDesc]
  | cons z zs ih =>
    rw [insertByTimeDesc]
    rcases List.pairwise_cons.mp h with ⟨hz, hzs⟩
    by_cases hc : z.time ≤ x.time
    · rw [if_pos hc]
      refine List.pairwise_cons.mpr ⟨?_, h⟩
      intro w hw
      rcases List.mem_cons.mp hw with h' | h'
      · exact h' ▸ hc
      · exact le_trans (hz w h') hc
    · rw [if_neg hc]
      refine List.pairwise_cons.mpr ⟨?_, ih hzs⟩
      intro w hw
      rcases mem_insertByTimeDesc hw with h' | h'
      · exact h' ▸ le_of_lt (lt_of_not_le hc)
      · exact hz w h'

theorem sortByTimeDesc_pairwise (l : List PHIVOLCSEarthquake) :
    (sortByTimeDesc l).Pairwise fun a b => b.time ≤ a.time := by
  induction l with
  | nil => simp [sortByTimeDesc]
  | cons x xs ih => exact pairwise_insertByTimeDesc ih

theorem filter_time_insertByTimeDesc (x : PHIVOLCSEarthquake)
    (l : List PHIVOLCSEarthquake) (t : ℤ) :
    (insertByTimeDesc x l).filter (fun r => decide (r.time = t)) =
      if x.time = t then x :: l.filter (fun r => decide (r.time = t))
      else l.filter (fun r => decide (r.time = t)) := by
  induction l with
  | nil => by_cases hx : x.time = t <;> simp [insertByTimeDesc, hx]
  | cons z zs ih =>
    rw [insertByTimeDesc]
    by_cases hc : z.time ≤ x.time
    · rw [if_pos hc]
      by_cases hx : x.time = t <;> simp [hx, List.filter_cons]
    · rw [if_neg hc]
      by_cases hz : z.time = t
      · have hx : ¬ x.time = t := by
          intro hx
          exact hc (le_of_eq (hz.trans hx.symm))
        simp [List.filter_cons, hz, hx, ih]
      · by_cases hx : x.time = t <;> simp [List.filter_cons, hz, hx, ih]

theorem sortByTimeDesc_filter_time (l : List PHIVOLCSEarthquake) (t : ℤ) :
    (sortByTimeDesc l).filter (fun r => decide (r.time = t)) =
      l.filter (fun r => decide (r.time = t)) := by
  induction l with
  | nil => simp [sortByTimeDesc]
  | cons x xs ih =>
    show (insertByTimeDesc x (sortByTimeDesc xs)).filter _ = _
    rw [filter_time_insertByTimeDesc]
    by_cases hx : x.time = t <;> simp [List.filter_cons, hx, ih]

theorem sortByTimeDesc_three (r1 r2 r3 : PHIVOLCSEarthquake)
    (h12 : r1.time < r2.time) (h23 : r2.time < r3.time) :
    sortByTimeDesc [r1, r2, r3] = [r3, r2, r1] ∧
    sortByTimeDesc [r1, r3, r2] = [r3, r2, r1] ∧
    sortByTimeDesc [r2, r1, r3] = [r3, r2, r1] ∧
    sortByTimeDesc [r2, r3, r1] = [r3, r2, r1] ∧
    sortByTimeDesc [r3, r1, r2] = [r3, r2, r1] ∧
    sortByTimeDesc [r3, r2, r1] = [r3, r2, r1] := by
  have h13 : r1.time < r3.time := h12.trans h23
  refine ⟨?_, ?_, ?_, ?_, ?_, ?_⟩ <;>
    simp [sortByTimeDesc, insertByTimeDesc, le_of_lt h12, le_of_lt h23, le_of_lt h13,
      not_le.mpr h12, not_le.mpr h23, not_le.mpr h13]

/-! ## Claim theorems -/

/-- C4: for every pair of input strings, `parseDate` returns a numeric
timestamp (the model is a total function, mirroring the source's
catch-all); whenever none of its parsing attempts — the `' - '` split of
a combined cell, the direct concatenation, the slash-to-dash
substitution, the bare date string, the ISO `'T'` join and the space
join — produces a valid calendar date, the returned value is the current
wall-clock time and the warning flag is set. -/
theorem parseDate_fallback_to_now (denv : DateEnv) (dateStr timeStr : String)
    (h : ∀ a ∈ parseDateAttempts dateStr timeStr, denv.jsParse a = none) :
    parseDate denv dateStr timeStr = (denv.now, true) := by
  have hdirect : denv.jsParse (dateStr ++ " " ++ timeStr) = none := by
    apply h
    simp [parseDateAttempts]
  have hslash : denv.jsParse (slashToDash dateStr) = none := by
    apply h
    simp [parseDateAttempts]
  have hbare : denv.jsParse dateStr = none := by
    apply h
    simp [parseDateAttempts]
  unfold parseDate
  have hcombined :
      (if strContains dateStr " - " then
          let parts := splitSub dateStr " - "
          if parts.length = 2 then
            denv.jsParse
              (trimStr (parts.getD 0 "") ++ " " ++ trimStr (parts.getD 1 ""))
          else none
        else none) = none := by
    by_cases hc : strContains dateStr " - " = true
    · rw [if_pos hc]
      by_cases hl : (splitSub dateStr " - ").length = 2
      · simp only [hl, if_pos]
        apply h
        simp [parseDateAttempts, hc, hl]
      · simp [hl]
    · simp [hc]
  rw [hcombined]
  simp only [List.findSome?, hdirect, hslash, hbare]
  by_cases ht : timeStr = ""
  · simp [ht]
  · have hiso : denv.jsParse (dateStr ++ "T" ++ timeStr) = none := by
      apply h
      simp [parseDateAttempts, ht]
    simp [ht, hiso, hdirect]

/-- C4 witness: with an oracle that rejects every string, `parseDate`
returns `(now, warning)`. -/
theorem parseDate_fallback_to_now_witness :
    parseDate ⟨fun _ => none, 42⟩ "" "" = (42, true) :=
  parseDate_fallback_to_now ⟨fun _ => none, 42⟩ "" "" fun _ _ => rfl

/-- C7: when no extraction strategy matches any earthquake content, the
scrape returns the empty sequence; the model is a total function, so no
error can be raised from extraction (fetch failures happen before the
engine runs and are outside the model). -/
theorem scrape_empty_on_no_match (env : ScrapeEnv) (doc : Document)
    (h1 : tabularRecords env doc.tables = [])
    (h2 : attrRecords env doc.attrTexts = [])
    (h3 : jsRecords env doc.scriptItems = []) :
    scrapeFromDoc env doc = [] := by
  simp [scrapeFromDoc, h1, h2, h3]

/-- C7 witness: the empty document yields the empty sequence. -/
theorem scrape_empty_on_no_match_witness : scrapeFromDoc sampleEnv emptyDoc = [] :=
  scrape_empty_on_no_match sampleEnv emptyDoc rfl rfl rfl

/-- C8: in record validation, each of magnitude 10.1, latitude 2.9,
longitude 128.1, and a zero latitude or longitude alone rejects the
candidate — in each case for arbitrary values of the other fields, so in
particular when they are in bounds — and a candidate at exactly (0, 0) is
always rejected; a rejected candidate is omitted from the output
(`processRow` returns `none`) and no error is raised (the model is
total). -/
theorem validation_single_bound_rejection :
    (∀ lat lon, acceptCandidate (some 10.1) lat lon = false) ∧
    (∀ m lon, acceptCandidate m (some 2.9) lon = false) ∧
    (∀ m lat, acceptCandidate m lat (some 128.1) = false) ∧
    (∀ m lon, acceptCandidate m (some 0) lon = false) ∧
    (∀ m lat, acceptCandidate m lat (some 0) = false) ∧
    (∀ m, acceptCandidate m (some 0) (some 0) = false) ∧
    (∀ (env : ScrapeEnv) (t r : ℕ) (row : Row),
      acceptCandidate (extractFields row.cells).magnitude
          (extractFields row.cells).latitude (extractFields row.cells).longitude = false →
        processRow env t r row = none) := by
  have hmag : validMagnitude (some (10.1 : ℚ)) = false := by decide
  have hlat : jltLit (some (2.9 : ℚ)) 3 = true := by decide
  have hlon : jgtLit (some (128.1 : ℚ)) 128 = true := by decide
  refine ⟨?_, ?_, ?_, ?_, ?_, ?_, ?_⟩
  · intro lat lon
    simp [acceptCandidate, hmag]
  · intro m lon
    simp [acceptCandidate, validCoords, hlat, jeqLit]
  · intro m lat
    simp [acceptCandidate, validCoords, hlon, jeqLit]
  · intro m lon
    simp [acceptCandidate, validCoords, jeqLit]
  · intro m lat
    simp [acceptCandidate, validCoords, jeqLit]
  · intro m
    simp [acceptCandidate, validCoords, jeqLit]
  · intro env t r row hrej
    unfold processRow
    by_cases hg : (isHeaderRow row || decide (row.cells.length < 6)) = true
    · simp [hg]
    · rw [if_neg (by simpa using hg)]
      unfold buildFromCandidate
      by_cases hm : validMagnitude (extractFields row.cells).magnitude = true
      · rw [acceptCandidate, hm, Bool.true_and] at hrej
        simp [hm, hrej]
      · simp [Bool.eq_false_iff.mpr hm]

/-- C8 witness: magnitude 5 with latitude 2.9 and longitude 120 is
rejected. -/
theorem validation_single_bound_rejection_witness :
    acceptCandidate (some 5) (some 2.9) (some 120) = false :=
  validation_single_bound_rejection.2.1 (some 5) (some 120)

/-- C9: in the combined date-time layout, coordinate and depth cell text
has leading zeros stripped before parsing: the row with latitude cell
`"06.34"` and depth cell `"048"` produces the record with latitude 6.34
and depth 48 (and `stripParse` itself maps `"06.34"` to 6.34 and `"048"`
to 48). -/
theorem tierA_leading_zero_normalization :
    processRow sampleEnv 0 0 rowTierA = some recTierA ∧
      recTierA.latitude = some 6.34 ∧ recTierA.depth = some 48 ∧
      stripParse "06.34" = some 6.34 ∧ stripParse "048" = some 48 := by
  refine ⟨?_, rfl, rfl, by decide, by decide⟩
  decide

/-- C10: every record produced by the attribute-pattern strategy carries
`time: Date.now()` — the single wall-clock instant of the run — never a
timestamp parsed from the document. -/
theorem attr_records_time_is_now (env : ScrapeEnv) (texts : List String)
    (r : PHIVOLCSEarthquake) (h : r ∈ attrRecords env texts) :
    r.time = env.denv.now := by
  unfold attrRecords at h
  obtain ⟨⟨i, t⟩, -, hf⟩ := List.mem_filterMap.mp h
  split at hf
  · exact absurd hf (by simp)
  · split at hf
    · exact absurd hf (by simp)
    · split at hf
      · cases hf
        rfl
      · exact absurd hf (by simp)

/-- C10 witness: the record scraped from the fallback-escalation document
has the run's `now` as its time. -/
theorem attr_records_time_is_now_witness : recAttrC6.time = sampleEnv.denv.now :=
  attr_records_time_is_now sampleEnv [attrTextC6] recAttrC6
    (by rw [show attrRecords sampleEnv [attrTextC6] = [recAttrC6] from by decide]; exact
      List.mem_singleton.mpr rfl)

theorem validMagnitude_spec {m : JSNum} (h : validMagnitude m = true) :
    ∃ q, m = some q ∧ 0 < q ∧ q ≤ 10 := by
  cases m with
  | none => simp [validMagnitude] at h
  | some q =>
    rw [validMagnitude, Bool.not_eq_true'] at h
    simp only [Bool.or_eq_false_iff] at h
    obtain ⟨⟨⟨h0, -⟩, hneg⟩, hbig⟩ := h
    rw [jeqLit, decide_eq_false_iff_not] at h0
    rw [jltLit, decide_eq_false_iff_not] at hneg
    rw [jgtLit, decide_eq_false_iff_not] at hbig
    exact ⟨q, rfl, lt_of_le_of_ne (not_lt.mp hneg) (Ne.symm h0), not_lt.mp hbig⟩

theorem validCoords_components {lat lon : JSNum} (h : validCoords lat lon = true) :
    jeqLit lat 0 = false ∧ jeqLit lon 0 = false ∧ jltLit lat 3 = false ∧
      jgtLit lat 22 = false ∧ jltLit lon 115 = false ∧ jgtLit lon 128 = false := by
  rw [validCoords, Bool.not_eq_true'] at h
  simp only [Bool.or_eq_false_iff] at h
  obtain ⟨⟨⟨⟨⟨h1, h2⟩, h3⟩, h4⟩, h5⟩, h6⟩ := h
  exact ⟨h1, h2, h3, h4, h5, h6⟩

theorem validCoords_lat_spec {lat lon : JSNum} (h : validCoords lat lon = true) :
    lat = none ∨ ∃ a, lat = some a ∧ a ≠ 0 ∧ 3 ≤ a ∧ a ≤ 22 := by
  obtain ⟨h1, -, h3, h4, -, -⟩ := validCoords_components h
  cases lat with
  | none => exact Or.inl rfl
  | some a =>
    rw [jeqLit, decide_eq_false_iff_not] at h1
    rw [jltLit, decide_eq_false_iff_not] at h3
    rw [jgtLit, decide_eq_false_iff_not] at h4
    exact Or.inr ⟨a, rfl, h1, not_lt.mp h3, not_lt.mp h4⟩

theorem validCoords_lon_spec {lat lon : JSNum} (h : validCoords lat lon = true) :
    lon = none ∨ ∃ b, lon = some b ∧ b ≠ 0 ∧ 115 ≤ b ∧ b ≤ 128 := by
  obtain ⟨-, h2, -, -, h5, h6⟩ := validCoords_components h
  cases lon with
  | none => exact Or.inl rfl
  | some b =>
    rw [jeqLit, decide_eq_false_iff_not] at h2
    rw [jltLit, decide_eq_false_iff_not] at h5
    rw [jgtLit, decide_eq_false_iff_not] at h6
    exact Or.inr ⟨b, rfl, h2, not_lt.mp h5, not_lt.mp h6⟩

theorem jsOr_none (y : JSNum) : jsOr none y = y := by
  simp [jsOr, jsTruthy]

theorem jsOr_some_nonzero {a : ℚ} (h : a ≠ 0) (y : JSNum) : jsOr (some a) y = some a := by
  simp [jsOr, jsTruthy, h]

/-- C5 counterexample: a 5-cell row that is not a header is rejected
(`none`), not processed into a candidate record. -/
theorem five_cell_row_rejected :
    isHeaderRow row5cells = false ∧ row5cells.cells.length = 5 ∧
      processRow sampleEnv 0 0 row5cells = none :=
  ⟨by decide, by decide, by decide⟩

/-- C5 amended: header rows and rows with fewer than 6 cells — including
every 5-cell row — are rejected unprocessed; a non-header row with at
least 6 cells proceeds to field extraction and validation.  (The 5-cell
fixed positional mapping of the source, part_000 lines 454-475, is
unreachable dead code behind the 6-cell guard at line 336.) -/
theorem row_guard_processing :
    (∀ (env : ScrapeEnv) (t r : ℕ) (row : Row),
        isHeaderRow row = true ∨ row.cells.length < 6 → processRow env t r row = none) ∧
    (∀ (env : ScrapeEnv) (t r : ℕ) (row : Row),
        isHeaderRow row = false → 6 ≤ row.cells.length →
          processRow env t r row = buildFromCandidate env t r (extractFields row.cells)) := by
  constructor
  · rintro env t r row (h | h)
    · simp [processRow, h]
    · simp [processRow, h]
  · intro env t r row h1 h2
    have hg : (isHeaderRow row || decide (row.cells.length < 6)) = false := by
      simp [h1, Nat.not_lt.mpr h2]
    simp only [processRow, hg, Bool.false_eq_true, if_false]

/-- C5 amended witness: the 6-cell sample row is processed into a
candidate. -/
theorem row_guard_processing_witness :
    processRow sampleEnv 0 0 rowTierA =
      buildFromCandidate sampleEnv 0 0 (extractFields rowTierA.cells) :=
  row_guard_processing.2 sampleEnv 0 0 rowTierA (by decide) (by decide)

/-- C1 counterexample: on a document whose only earthquake content is one
attribute-tagged element reading `"magnitude: 5.2"`, the extraction run
returns a record whose latitude and longitude are exactly 0 — outside
the declared nonzero bands — so the claimed bounds do not hold for every
returned record. -/
theorem scrape_bound_violation :
    scrapeFromDoc sampleEnv docMagOnly = [recMagOnly] ∧
      recMagOnly.latitude = some 0 ∧ recMagOnly.longitude = some 0 :=
  ⟨by decide, rfl, rfl⟩

/-- C1 amended: records from the tabular strategy have magnitude in
`(0, 10]` and each coordinate either exactly 0 (a cell that failed
numeric parsing is `NaN`, passes the comparison-based checks, and is
coerced to 0 at record construction) or nonzero within its band
(latitude 3-22, longitude 115-128); attribute-pattern records guarantee
only a magnitude in `(0, 10)` (coordinates default to 0); embedded-data
records guarantee only a nonzero magnitude. -/
theorem per_strategy_field_guarantees :
    (∀ (env : ScrapeEnv) (tables : List (List Row)) (r : PHIVOLCSEarthquake),
        r ∈ tabularRecords env tables →
          (∃ q, r.magnitude = some q ∧ 0 < q ∧ q ≤ 10) ∧
          (r.latitude = some 0 ∨ ∃ a, r.latitude = some a ∧ a ≠ 0 ∧ 3 ≤ a ∧ a ≤ 22) ∧
          (r.longitude = some 0 ∨ ∃ b, r.longitude = some b ∧ b ≠ 0 ∧ 115 ≤ b ∧ b ≤ 128)) ∧
    (∀ (env : ScrapeEnv) (texts : List String) (r : PHIVOLCSEarthquake),
        r ∈ attrRecords env texts → ∃ q, r.magnitude = some q ∧ 0 < q ∧ q < 10) ∧
    (∀ (env : ScrapeEnv) (items : List JsonItem) (r : PHIVOLCSEarthquake),
        r ∈ jsRecords env items → ∃ q, r.magnitude = some q ∧ q ≠ 0) := by
  refine ⟨?_, ?_, ?_⟩
  · intro env tables r hr
    obtain ⟨⟨ti, rows⟩, -, hmem⟩ := List.mem_flatMap.mp hr
    obtain ⟨⟨ri, row⟩, -, hrow⟩ := List.mem_filterMap.mp hmem
    rw [processRow] at hrow
    split at hrow
    · exact absurd hrow (by simp)
    · rw [buildFromCandidate] at hrow
      by_cases hm : validMagnitude (extractFields row.cells).magnitude = true
      · rw [if_pos hm] at hrow
        by_cases hco :
            validCoords (extractFields row.cells).latitude
              (extractFields row.cells).longitude = true
        · rw [if_pos hco] at hrow
          obtain rfl := (Option.some.inj hrow)
          obtain ⟨q, hq, hq0, hq10⟩ := validMagnitude_spec hm
          refine ⟨⟨q, by rw [buildRecord, hq], hq0, hq10⟩, ?_, ?_⟩
          · rcases validCoords_lat_spec hco with hnone | ⟨a, ha, ha0, ha3, ha22⟩
            · exact Or.inl (by rw [buildRecord, hnone, jsOr_none])
            · exact Or.inr ⟨a, by rw [buildRecord, ha, jsOr_some_nonzero ha0], ha0, ha3, ha22⟩
          · rcases validCoords_lon_spec hco with hnone | ⟨b, hb, hb0, hb115, hb128⟩
            · exact Or.inl (by rw [buildRecord, hnone, jsOr_none])
            · exact Or.inr ⟨b, by rw [buildRecord, hb, jsOr_some_nonzero hb0], hb0, hb115, hb128⟩
        · rw [if_neg hco] at hrow
          exact absurd hrow (by simp)
      · rw [if_neg hm] at hrow
        exact absurd hrow (by simp)
  · intro env texts r hr
    obtain ⟨⟨i, t⟩, -, hf⟩ := List.mem_filterMap.mp hr
    split at hf
    · exact absurd hf (by simp)
    · split at hf
      · exact absurd hf (by simp)
      · split at hf
        · next m _ hcond =>
            obtain rfl := (Option.some.inj hf)
            simp only [Bool.and_eq_true, decide_eq_true_eq] at hcond
            exact ⟨m, rfl, hcond.1, hcond.2⟩
        · exact absurd hf (by simp)
  · intro env items r hr
    obtain ⟨⟨i, item⟩, -, hf⟩ := List.mem_filterMap.mp hr
    by_cases hg : jsTruthy (jsOr item.magnitude item.mag) = true
    · rw [if_pos hg] at hf
      obtain rfl := (Option.some.inj hf)
      obtain ⟨q, hq, hq0⟩ := jsTruthy_eq_true_iff.mp hg
      exact ⟨q, by rw [jsOr_of_truthy hg, hq], hq0⟩
    · rw [if_neg hg] at hf
      exact absurd hf (by simp)

/-- C1 amended witness: the record extracted from the fallback-escalation
element has a magnitude strictly between 0 and 10. -/
theorem per_strategy_field_guarantees_witness :
    ∃ q, recAttrC6.magnitude = some q ∧ 0 < q ∧ q < 10 :=
  per_strategy_field_guarantees.2.1 sampleEnv [attrTextC6] recAttrC6
    (by rw [show attrRecords sampleEnv [attrTextC6] = [recAttrC6] from by decide]; exact
      List.mem_singleton.mpr rfl)

/-- C2: the frontend deduplication collapses a pair of records into the
first-encountered one exactly when they are duplicates; two records are
duplicates exactly when their ids are equal, or their times differ by
less than 60 000 ms and their latitudes and longitudes each differ by
less than 0.01; in particular two records with distinct ids whose times
differ by two minutes or more are both kept. -/
theorem dedup_pair_characterization :
    (∀ a b : PHIVOLCSEarthquake,
        removeDuplicatesApp [a, b] = if isDuplicateApp a b = true then [a] else [a, b]) ∧
    (∀ a b : PHIVOLCSEarthquake, isDuplicateApp a b = true ↔
        a.id = b.id ∨ (|a.time - b.time| < 60000 ∧
          (∃ x y, a.latitude = some x ∧ b.latitude = some y ∧ |x - y| < 1 / 100) ∧
          (∃ x y, a.longitude = some x ∧ b.longitude = some y ∧ |x - y| < 1 / 100))) ∧
    (∀ a b : PHIVOLCSEarthquake, a.id ≠ b.id → (120000 : ℤ) ≤ |a.time - b.time| →
        removeDuplicatesApp [a, b] = [a, b]) := by
  have hpair : ∀ a b : PHIVOLCSEarthquake,
      removeDuplicatesApp [a, b] = if isDuplicateApp a b = true then [a] else [a, b] :=
    fun a b => keepFirstBy_pair _ a b (isDuplicateApp_self a) (isDuplicateApp_self b)
  have hiff : ∀ a b : PHIVOLCSEarthquake, isDuplicateApp a b = true ↔
      a.id = b.id ∨ (|a.time - b.time| < 60000 ∧
        (∃ x y, a.latitude = some x ∧ b.latitude = some y ∧ |x - y| < 1 / 100) ∧
        (∃ x y, a.longitude = some x ∧ b.longitude = some y ∧ |x - y| < 1 / 100)) := by
    intro a b
    rw [isDuplicateApp]
    simp only [Bool.or_eq_true, Bool.and_eq_true, decide_eq_true_eq, jltLit_jabs_jsub_iff]
    tauto
  refine ⟨hpair, hiff, ?_⟩
  intro a b hid ht
  rw [hpair, if_neg]
  intro hdup
  rcases (hiff a b).mp hdup with h | ⟨h, -, -⟩
  · exact hid h
  · exact absurd (lt_of_le_of_lt ht h) (by norm_num)

/-- C2 witness: two records with distinct ids 200 000 ms apart are both
kept. -/
theorem dedup_pair_characterization_witness :
    removeDuplicatesApp [recDedupA, recDedupB] = [recDedupA, recDedupB] :=
  dedup_pair_characterization.2.2 recDedupA recDedupB (by decide) (by decide)

/-- C3: the sequence returned by `scrapePHIVOLCS` is sorted by time
descending (any earlier position carries a time at least that of any
later position); the sort is stable, so records with equal time keep the
order of the list being sorted (filtering the sorted output to one time
value returns those records in their pre-sort encounter order); and
three records with distinct ids and times T1 < T2 < T3, deduplicated and
sorted from any of the six input orders, come out as [T3, T2, T1]. -/
theorem scrape_sorted_time_descending :
    (∀ (env : ScrapeEnv) (doc : Document) (i j : ℕ)
        (hi : i < (scrapeFromDoc env doc).length) (hj : j < (scrapeFromDoc env doc).length),
        i < j →
          ((scrapeFromDoc env doc).get ⟨j, hj⟩).time ≤
            ((scrapeFromDoc env doc).get ⟨i, hi⟩).time) ∧
    (∀ (l : List PHIVOLCSEarthquake) (t : ℤ),
        (sortByTimeDesc l).filter (fun r => decide (r.time = t)) =
          l.filter (fun r => decide (r.time = t))) ∧
    (∀ r1 r2 r3 : PHIVOLCSEarthquake, r1.time < r2.time → r2.time < r3.time →
        r1.id ≠ r2.id → r1.id ≠ r3.id → r2.id ≠ r3.id →
        sortByTimeDesc (dedupeById [r1, r2, r3]) = [r3, r2, r1] ∧
        sortByTimeDesc (dedupeById [r1, r3, r2]) = [r3, r2, r1] ∧
        sortByTimeDesc (dedupeById [r2, r1, r3]) = [r3, r2, r1] ∧
        sortByTimeDesc (dedupeById [r2, r3, r1]) = [r3, r2, r1] ∧
        sortByTimeDesc (dedupeById [r3, r1, r2]) = [r3, r2, r1] ∧
        sortByTimeDesc (dedupeById [r3, r2, r1]) = [r3, r2, r1]) := by
  have key : ∀ recs : List PHIVOLCSEarthquake,
      (if recs.isEmpty then [] else sortByTimeDesc (dedupeById recs)).Pairwise
        fun a b => b.time ≤ a.time := by
    intro recs
    split
    · exact List.Pairwise.nil
    · exact sortByTimeDesc_pairwise _
  have hp : ∀ (env : ScrapeEnv) (doc : Document),
      (scrapeFromDoc env doc).Pairwise fun a b => b.time ≤ a.time := by
    intro env doc
    rw [scrapeFromDoc]
    exact key _
  refine ⟨?_, sortByTimeDesc_filter_time, ?_⟩
  · intro env doc i j hi hj hij
    exact List.pairwise_iff_get.mp (hp env doc) ⟨i, hi⟩ ⟨j, hj⟩ hij
  · intro r1 r2 r3 h12 h23 hid12 hid13 hid23
    obtain ⟨s1, s2, s3, s4, s5, s6⟩ := sortByTimeDesc_three r1 r2 r3 h12 h23
    refine ⟨?_, ?_, ?_, ?_, ?_, ?_⟩
    · rw [dedupeById_three r1 r2 r3 hid12 hid13 hid23]
      exact s1
    · rw [dedupeById_three r1 r3 r2 hid13 hid12 (Ne.symm hid23)]
      exact s2
    · rw [dedupeById_three r2 r1 r3 (Ne.symm hid12) hid23 hid13]
      exact s3
    · rw [dedupeById_three r2 r3 r1 hid23 (Ne.symm hid12) (Ne.symm hid13)]
      exact s4
    · rw [dedupeById_three r3 r1 r2 (Ne.symm hid13) (Ne.symm hid23) hid12]
      exact s5
    · rw [dedupeById_three r3 r2 r1 (Ne.symm hid23) (Ne.symm hid13) (Ne.symm hid12)]
      exact s6

/-- C3 witness: three concrete records with times 1 < 2 < 3, fed in
ascending order, come out as [T3, T2, T1]. -/
theorem scrape_sorted_time_descending_witness :
    sortByTimeDesc (dedupeById [recT1, recT2, recT3]) = [recT3, recT2, recT1] :=
  (scrape_sorted_time_descending.2.2 recT1 recT2 recT3 (by decide) (by decide)
    (by decide) (by decide) (by decide)).1

/-- C6: the attribute-pattern strategy runs only when the tabular strategy
yields zero records (a nonempty tabular result fully determines the
output, whatever the rest of the document holds); and on a document with
no tables and one attribute-tagged element containing
`"magnitude: 5.2, lat: 8.1, lon: 124.3"` the run produces exactly one
record, with magnitude 5.2, latitude 8.1, longitude 124.3 and depth 0. -/
theorem attr_fallback_escalation :
    (∀ (env : ScrapeEnv) (doc : Document) (r : PHIVOLCSEarthquake)
        (rs : List PHIVOLCSEarthquake), tabularRecords env doc.tables = r :: rs →
        scrapeFromDoc env doc = sortByTimeDesc (dedupeById (r :: rs))) ∧
    (scrapeFromDoc sampleEnv docAttrC6 = [recAttrC6] ∧ recAttrC6.magnitude = some 5.2 ∧
      recAttrC6.latitude = some 8.1 ∧ recAttrC6.longitude = some 124.3 ∧
      recAttrC6.depth = some 0) := by
  constructor
  · intro env doc r rs h
    simp [scrapeFromDoc, h]
  · exact ⟨by decide, rfl, rfl, rfl, rfl⟩

/-- C6 witness: on a document whose single table row is valid, the output
is that row's record, deduplicated and sorted — the attribute elements
are never consulted. -/
theorem attr_fallback_escalation_witness :
    scrapeFromDoc sampleEnv docTabular = sortByTimeDesc (dedupeById [recTierA]) :=
  attr_fallback_escalation.1 sampleEnv docTabular recTierA [] (by decide)

end ProofSection

end Seismic
